import Mathlib

/-!
Verification of the `openapi-gen` code generator (`openapi-gen/main.go`).

The program is a single linear pipeline: read a JSON schema file, decode it
into a `Schema` value, render a text template over the decoded value and write
the result to standard output or to a file.  This file gives a shallow
embedding of that pipeline:

* the pure string helpers (`convertRefToClassName`, `snakeCaseToPascalCase`,
  `stripNewlines`) together with models of the Go standard-library functions
  they call (`strings.TrimLeft`, `strings.Title`, `strings.Replace`,
  `strings.ToUpper` on a single character is `Char.toUpper`);
* the decoded schema shape (`Schema`, `Definition`, `Property`, ...), with the
  JSON object entries kept as association lists in document order;
* the field-level and definition-level behaviour of `codeTemplate` as a
  structured rendering (`renderFieldType`, `renderDef`, `renderSchema`);
  Go's `text/template` visits map entries in sorted key order, which the
  model makes explicit via an insertion sort on keys;
* the control flow of `main` (`mainRun`) with the results of the effectful
  steps (file read, JSON decode, template parse, file create, write) supplied
  as explicit parameters.

Strings are modelled as `List Char` (Go iterates strings by rune); `String`
wrappers are provided for readable statements.  All inputs appearing in the
claims are ASCII, where `Char.toUpper` agrees with Go's `strings.ToUpper`.
-/

namespace OpenapiGen

/-! ### Models of the Go `strings` library functions used by `main.go` -/

/-- Model of Go `strings.TrimLeft cutset`: remove the longest leading run of
characters that are members of the cutset.  Note that the second argument of
`strings.TrimLeft` is a *set of characters*, not a prefix. -/
def goTrimLeft (cutset : List Char) (s : List Char) : List Char :=
  s.dropWhile (fun c => cutset.contains c)

/-- The ASCII fragment of the word-separator test used by Go `strings.Title`:
an ASCII character separates words unless it is a letter, a digit or `'_'`.
(For non-ASCII characters Go falls back to Unicode classification; the model
uses whitespace, which agrees on every input in this development.) -/
def goIsSeparator (c : Char) : Bool :=
  if c.toNat ≤ 0x7F then
    !(c.isAlpha || c.isDigit || c == '_')
  else
    c.isWhitespace

/-- Helper for `goTitle`: `prev` is the previously visited character
(initially a space, which is a separator). -/
def goTitleAux : Char → List Char → List Char
  | _, [] => []
  | prev, c :: rest => (if goIsSeparator prev then c.toUpper else c) :: goTitleAux c rest

/-- Model of Go `strings.Title`: map every character that begins a word
(i.e. follows a separator) to upper case. -/
def goTitle (s : List Char) : List Char :=
  goTitleAux ' ' s

/-- Helper for `goReplaceAll`.  The `Nat` argument counts characters that are
still to be consumed as part of an already-replaced occurrence of the pattern
(so the recursion is structural on the string).  With the counter at `0`, if
the pattern matches at the current position the replacement is emitted and the
remaining `pat.length - 1` matched characters are skipped; otherwise the
current character is copied. -/
def goReplaceAux (pat rep : List Char) : Nat → List Char → List Char
  | _, [] => []
  | skip + 1, _ :: rest => goReplaceAux pat rep skip rest
  | 0, c :: rest =>
    if pat ≠ [] ∧ pat.isPrefixOf (c :: rest) then
      rep ++ goReplaceAux pat rep (pat.length - 1) rest
    else
      c :: goReplaceAux pat rep 0 rest

/-- Model of Go `strings.Replace(s, pat, rep, -1)` for a non-empty pattern:
replace every non-overlapping occurrence of `pat` in `s` by `rep`, scanning
left to right.  (The program's only call site uses the one-character pattern
`"\n"`, so the empty-pattern behaviour of `strings.Replace` is irrelevant;
the model leaves the string unchanged there.) -/
def goReplaceAll (pat rep : List Char) (s : List Char) : List Char :=
  goReplaceAux pat rep 0 s

/-! ### The three helper functions of `main.go` -/

/-- `convertRefToClassName` from `main.go`:
`strings.Title(strings.TrimLeft(input, "#/definitions/"))`. -/
def convertRefToClassName (input : List Char) : List Char :=
  goTitle (goTrimLeft "#/definitions/".toList input)

/-- Loop body of `snakeCaseToPascalCase` for the iterations with `k > 0`;
the `Bool` argument is the `isToUpper` flag. -/
def snakeAux : Bool → List Char → List Char
  | _, [] => []
  | true, v :: rest => v.toUpper :: snakeAux false rest
  | false, v :: rest => if v = '_' then snakeAux true rest else v :: snakeAux false rest

/-- `snakeCaseToPascalCase` from `main.go`: at index `0` the output is set to
the upper-cased first character (the `isToUpper` flag is neither consulted nor
set there, even if that character is an underscore); afterwards `'_'` sets the
flag, a character seen with the flag set is upper-cased, and any other
character is copied. -/
def snakeCaseToPascalCase : List Char → List Char
  | [] => []
  | c :: rest => c.toUpper :: snakeAux false rest

/-- `stripNewlines` from `main.go`: `strings.Replace(input, "\n", " ", -1)`. -/
def stripNewlines (s : List Char) : List Char :=
  goReplaceAll ['\n'] [' '] s

/-! ### `String` wrappers -/

/-- `convertRefToClassName` on `String`. -/
def convertRefToClassNameS (s : String) : String :=
  ⟨convertRefToClassName s.toList⟩

/-- `snakeCaseToPascalCase` on `String`. -/
def snakeCaseToPascalCaseS (s : String) : String :=
  ⟨snakeCaseToPascalCase s.toList⟩

/-- `stripNewlines` on `String`. -/
def stripNewlinesS (s : String) : String :=
  ⟨stripNewlines s.toList⟩

/-- `strings.Title` on `String`. -/
def goTitleS (s : String) : String :=
  ⟨goTitle s.toList⟩

example : snakeCaseToPascalCaseS "user_id" = "UserId" := by decide
example : snakeCaseToPascalCaseS "xp" = "Xp" := by decide
example : snakeCaseToPascalCaseS "___a" = "__a" := by decide
example : snakeCaseToPascalCaseS "_a" = "_a" := by decide
example : convertRefToClassNameS "#/definitions/Session" = "Session" := by decide
example : convertRefToClassNameS "#/definitions/session" = "" := by decide
example : stripNewlinesS "a\nb\nc" = "a b c" := by decide
example : goTitleS "Account" = "Account" := by decide

/-! ### The decoded schema shape

`main.go` decodes the input JSON into an anonymous struct.  JSON objects are
decoded into Go maps; the model keeps the entries as association lists in
document order (the order information present in the file), and the places
where Go iterates a map sort the keys explicitly, as `text/template` does.
Missing JSON fields decode to zero values, modelled by `""`/`[]` defaults. -/

/-- The `Items` sub-struct of a `Definitions` property (`Type`, `Ref`). -/
structure PropItems where
  type : String := ""
  ref : String := ""
deriving DecidableEq, Repr

/-- One property of a definition (`Type`, `Ref`, `Items`, `Format`,
`Description`). -/
structure Property where
  type : String := ""
  ref : String := ""
  items : PropItems := {}
  format : String := ""
  description : String := ""
deriving DecidableEq, Repr

/-- One entry of the `Definitions` map (`Properties`, `Description`). -/
structure Definition where
  properties : List (String × Property) := []
  description : String := ""
deriving DecidableEq, Repr

/-- The `Schema` sub-struct of an operation parameter (`Type`, `Ref`). -/
structure ParamSchema where
  type : String := ""
  ref : String := ""
deriving DecidableEq, Repr

/-- One parameter of an operation (`Name`, `In`, `Required`, `Type`, `Items`,
`Schema`); `In` is spelled `in_` because `in` is a Lean keyword. -/
structure Parameter where
  name : String := ""
  in_ : String := ""
  required : Bool := false
  type : String := ""
  items : PropItems := {}
  schema : ParamSchema := {}
deriving DecidableEq, Repr

/-- One entry of a path's method map (`Summary`, `OperationId`, the `$ref` of
the `200` response, `Parameters`).  Decoded but consumed only by the disabled
template block. -/
structure Operation where
  summary : String := ""
  operationId : String := ""
  okResponseRef : String := ""
  parameters : List Parameter := []
deriving DecidableEq, Repr

/-- The root decoded document: `Paths` and `Definitions`. -/
structure Schema where
  paths : List (String × List (String × Operation)) := []
  definitions : List (String × Definition) := []
deriving DecidableEq, Repr

/-! ### The template renderer

`codeTemplate` emits, for every definition, an interface `I<classname>` and a
class `<classname> : I<classname>`, with one member per property.  The member
type is chosen by the template's `if`/`else if` chain on `$property.Type`, and
on the class every member carries a `[TinyJson.JsonProperty("<propname>")]`
annotation with the original property key.  The model renders this structure
(names, member types, annotation keys) rather than the literal program text. -/

/-- The member type chosen by the template for one property. -/
inductive FieldType where
  | int
  | bool
  | string
  | listString
  | listInt
  | listBool
  | listRef (cls : String)
  | objRef (cls : String)
deriving DecidableEq, Repr

/-- The template's `if`/`else if` chain on `$property.Type` (identical in the
interface block and in the class block): `integer`, `boolean`, `string`,
`array` (with an inner chain on `$property.Items.Type`, whose fallback uses
`$property.Items.Ref | cleanRef`), and a fallback using
`$property.Ref | cleanRef`. -/
def renderFieldType (p : Property) : FieldType :=
  if p.type = "integer" then .int
  else if p.type = "boolean" then .bool
  else if p.type = "string" then .string
  else if p.type = "array" then
    if p.items.type = "string" then .listString
    else if p.items.type = "integer" then .listInt
    else if p.items.type = "boolean" then .listBool
    else .listRef (convertRefToClassNameS p.items.ref)
  else .objRef (convertRefToClassNameS p.ref)

/-- Key order used by Go `text/template` when ranging over a map with string
keys: lexicographic (bytewise, which for UTF-8 agrees with the codepoint
order used here) on the key. -/
def keyLe (a b : String × α) : Prop :=
  a.1.toList ≤ b.1.toList

instance : DecidableRel (keyLe (α := α)) := fun a b =>
  inferInstanceAs (Decidable (a.1.toList ≤ b.1.toList))

instance : IsTotal (String × α) keyLe :=
  ⟨fun a b => le_total a.1.toList b.1.toList⟩

instance : IsTrans (String × α) keyLe :=
  ⟨fun _ _ _ => le_trans⟩

/-- The sorted key order in which `text/template` visits the entries of a
decoded JSON object (Go map). -/
def sortByKey (l : List (String × α)) : List (String × α) :=
  List.insertionSort keyLe l

/-- One rendered class/interface member: the `TinyJson.JsonProperty`
annotation key (the original property name), the member name produced by
`snakeCaseToPascalCase`, and the member type. -/
structure RenderedField where
  jsonKey : String
  name : String
  fieldType : FieldType
deriving DecidableEq, Repr

/-- The rendered output for one definition: the interface name
`"I" ++ classname`, the class name `$defname | title`, and the members (the
same list for the interface, minus the annotation keys). -/
structure RenderedDef where
  defKey : String
  interfaceName : String
  className : String
  fields : List RenderedField
deriving DecidableEq, Repr

/-- Render one definition as the template does: `$classname := $defname |
title`, interface `I<classname>`, class `<classname> : I<classname>`, and one
member per property, the properties visited in sorted key order. -/
def renderDef (defname : String) (d : Definition) : RenderedDef :=
  let classname := goTitleS defname
  { defKey := defname
    interfaceName := "I" ++ classname
    className := classname
    fields := (sortByKey d.properties).map fun pp =>
      { jsonKey := pp.1
        name := snakeCaseToPascalCaseS pp.1
        fieldType := renderFieldType pp.2 } }

/-- Render the whole document: the definitions visited in sorted key order. -/
def renderSchema (s : Schema) : List RenderedDef :=
  (sortByKey s.definitions).map fun dd => renderDef dd.1 dd.2

example :
    renderSchema
      { definitions := [("Account",
          { properties := [("user_id", { type := "string" }),
                           ("wallet", { type := "integer" })] })] } =
      [{ defKey := "Account", interfaceName := "IAccount", className := "Account",
         fields := [{ jsonKey := "user_id", name := "UserId", fieldType := .string },
                    { jsonKey := "wallet", name := "Wallet", fieldType := .int }] }] := by
  decide

/-! ### The `main` control flow

`mainRun` models `func main` after flag parsing.  The results of the
effectful steps are supplied explicitly: `readResult` for `ioutil.ReadFile`,
the `decode` function for `json.Unmarshal` (deterministic in the content),
`templateParseError` for `template.Parse`, `createError` for `os.Create` and
`writeError` for errors raised while writing through the buffered writer.
A Go `main` that returns exits the process with status `0`, so every path of
the model carries `exitCode := 0`. -/

/-- The inputs of one invocation of the program. -/
structure MainEnv where
  inputs : List String
  outputFlag : String
  readResult : Except String String
  templateParseError : Option String
  createError : Option String
  writeError : Option String
deriving Repr

/-- The observable outcome of one invocation: the diagnostic text printed to
standard output, the rendering sent to standard output (when no `--output`
was given), whether the destination file was created/truncated, the rendering
written into it, and the process exit status. -/
structure MainOutcome where
  stdout : String
  stdoutRender : Option (List RenderedDef)
  fileCreated : Bool
  fileRender : Option (List RenderedDef)
  exitCode : Nat
deriving DecidableEq, Repr

/-- An outcome of a run that stopped after printing `msg` (all error paths of
`main`, and the usage path). -/
def stoppedWith (msg : String) : MainOutcome :=
  { stdout := msg, stdoutRender := none, fileCreated := false,
    fileRender := none, exitCode := 0 }

/-- The usage text printed when no positional argument is present:
`fmt.Printf("No input file found: %s\n\n", inputs)` (a Go string slice prints
as `[a b c]`), the usage line, and the flag defaults. -/
def usageMessage (inputs : List String) : String :=
  "No input file found: [" ++ String.intercalate " " inputs ++ "]\n\n" ++
    "openapi-gen [flags] inputs...\n" ++
    "  -output string\n    \tThe output for generated code.\n"

/-- The control flow of `func main`: usage check, `ioutil.ReadFile`,
`json.Unmarshal`, `template.Parse`, then either `tmpl.Execute(os.Stdout, _)`
(empty `--output`) or `os.Create` followed by `tmpl.Execute(writer, _)` and
`writer.Flush()`.  The return values of the final `Execute` and `Flush` are
discarded by the program, so a write error produces no diagnostic. -/
def mainRun (decode : String → Except String Schema) (env : MainEnv) : MainOutcome :=
  match env.inputs with
  | [] => stoppedWith (usageMessage env.inputs)
  | input :: _ =>
    match env.readResult with
    | .error e => stoppedWith ("Unable to read file: " ++ e ++ "\n")
    | .ok content =>
      match decode content with
      | .error e => stoppedWith ("Unable to decode input " ++ input ++ " : " ++ e ++ "\n")
      | .ok schema =>
        match env.templateParseError with
        | some e => stoppedWith ("Template parse error: " ++ e ++ "\n")
        | none =>
          if env.outputFlag = "" then
            { stdout := "", stdoutRender := some (renderSchema schema),
              fileCreated := false, fileRender := none, exitCode := 0 }
          else
            match env.createError with
            | some e => stoppedWith ("Unable to create file: " ++ e ++ "\n")
            | none =>
              { stdout := "", stdoutRender := none, fileCreated := true,
                fileRender := if env.writeError.isSome then none
                              else some (renderSchema schema),
                exitCode := 0 }

/-! ### Definitions taken from the specification's words

These are deliberately *not* models of the source: they state what the
specification says, to be compared with the source models above. -/

/-- Modelled from the spec: the reference-to-class-name transform as the
specification words it — strip exactly the literal prefix `#/definitions/`
when present, then title-case the remainder (an input without the prefix is
title-cased unchanged). -/
def spec_referenceToClassName (s : List Char) : List Char :=
  goTitle (if "#/definitions/".toList.isPrefixOf s then
             s.drop "#/definitions/".toList.length
           else s)

/-- Modelled from the spec: the property-to-field-type mapping as §4.3 words
it — precedence `integer`, `boolean`, `string`, `array` (element type from
`Items.Type`, with string/integer/boolean mapping directly and anything else
a sequence of object references from `Items.Ref`), and everything else a
single object reference from `Ref`. -/
def specFieldDecl (p : Property) : FieldType :=
  match p.type with
  | "integer" => .int
  | "boolean" => .bool
  | "string" => .string
  | "array" =>
    match p.items.type with
    | "string" => .listString
    | "integer" => .listInt
    | "boolean" => .listBool
    | _ => .listRef (convertRefToClassNameS p.items.ref)
  | _ => .objRef (convertRefToClassNameS p.ref)

/-! ### Helper lemmas -/

/-- No character of the `A`–`Z` codepoint range is an underscore. -/
theorem ofNat_ne_underscore (n : Nat) (h1 : 65 ≤ n) (h2 : n ≤ 90) :
    Char.ofNat n ≠ '_' := by
  interval_cases n <;> decide

/-- `Char.toUpper` never produces an underscore from a non-underscore. -/
theorem toUpper_ne_underscore {c : Char} (h : c ≠ '_') : c.toUpper ≠ '_' := by
  simp only [Char.toUpper]
  split
  · rename_i hc
    exact ofNat_ne_underscore _ (by omega) (by omega)
  · exact h

/-- The loop of `snakeCaseToPascalCase` emits no underscore as long as the
input has no two adjacent underscores and, when the capitalize-next flag is
set, does not start with an underscore. -/
theorem snakeAux_no_underscore :
    ∀ s : List Char, s.Chain' (fun a b => ¬(a = '_' ∧ b = '_')) →
      ∀ b : Bool, (b = true → s.head? ≠ some '_') → '_' ∉ snakeAux b s := by
  intro s
  induction s with
  | nil =>
    intro _ b _
    cases b <;> simp [snakeAux]
  | cons c rest ih =>
    intro hchain b hb
    rw [List.chain'_cons'] at hchain
    obtain ⟨hrel, hrest⟩ := hchain
    cases b with
    | true =>
      have hc : c ≠ '_' := by
        intro hc
        exact hb rfl (by simp [hc])
      simp only [snakeAux]
      intro hmem
      rcases List.mem_cons.mp hmem with h | h
      · exact toUpper_ne_underscore hc h.symm
      · exact ih hrest false (by simp) h
    | false =>
      by_cases hc : c = '_'
      · subst hc
        simp only [snakeAux, if_pos rfl]
        apply ih hrest true
        intro _
        cases hr : rest.head? with
        | none => simp
        | some y =>
          have hy := hrel y (by rw [hr]; rfl)
          simp only [ne_eq, Option.some.injEq]
          intro hy'
          exact hy ⟨rfl, hy'⟩
      · simp only [snakeAux, if_neg hc]
        intro hmem
        rcases List.mem_cons.mp hmem with h | h
        · exact hc h.symm
        · exact ih hrest false (by simp) h

/-- The loop of `snakeCaseToPascalCase` emits at most one character per input
character. -/
theorem snakeAux_length_le :
    ∀ (s : List Char) (b : Bool), (snakeAux b s).length ≤ s.length := by
  intro s
  induction s with
  | nil => intro b; cases b <;> simp [snakeAux]
  | cons c rest ih =>
    intro b
    cases b with
    | true =>
      simpa [snakeAux] using ih false
    | false =>
      by_cases hc : c = '_'
      · subst hc
        simp only [snakeAux, if_pos rfl, List.length_cons]
        exact le_trans (ih true) (Nat.le_succ _)
      · simpa [snakeAux, if_neg hc] using ih false

/-- `goReplaceAll` with a one-character pattern and a one-character
replacement is a character map. -/
theorem goReplaceAll_single (a b : Char) :
    ∀ s : List Char, goReplaceAll [a] [b] s = s.map fun c => if c = a then b else c := by
  intro s
  induction s with
  | nil => rfl
  | cons c rest ih =>
    simp only [goReplaceAll, goReplaceAux] at ih ⊢
    by_cases hc : c = a
    · subst hc
      rw [if_pos ⟨by simp, by simp [List.isPrefixOf]⟩]
      simpa using ih
    · rw [if_neg]
      · simpa [hc] using ih
      · rintro ⟨-, hpre⟩
        simp [List.isPrefixOf] at hpre
        exact hc hpre.symm

/-- The key of a rendered definition is the definition's name. -/
theorem renderDef_defKey (dn : String) (d : Definition) :
    (renderDef dn d).defKey = dn := rfl

/-- The annotation keys of a rendered definition are the property names in
sorted key order. -/
theorem renderDef_jsonKeys (dn : String) (d : Definition) :
    (renderDef dn d).fields.map RenderedField.jsonKey
      = (sortByKey d.properties).map Prod.fst := by
  simp [renderDef]

/-- The definition keys of a rendered schema are the definition names in
sorted key order. -/
theorem renderSchema_defKeys (s : Schema) :
    (renderSchema s).map RenderedDef.defKey
      = (sortByKey s.definitions).map Prod.fst := by
  simp [renderSchema, renderDef_defKey]

/-! ### The claims -/

/-- C1, counterexample: `convertRefToClassName` does not strip the literal
prefix `#/definitions/` — `strings.TrimLeft` treats `"#/definitions/"` as a
character set, so for the reference `#/definitions/session` every character
of the remainder also lies in the set `{#, /, d, e, f, i, n, o, s, t}` and is
trimmed away, yielding `""` where the claim requires `"Session"`. -/
theorem c1_counterexample :
    convertRefToClassNameS "#/definitions/session" = ""
    ∧ spec_referenceToClassName "#/definitions/session".toList = "Session".toList
    ∧ ("" : String) ≠ "Session" := by
  decide

/-- C1, amended: `convertRefToClassName` removes the longest leading run of
characters drawn from the set `{#, /, d, e, f, i, n, o, s, t}` (the characters
of the literal `"#/definitions/"`) and title-cases the remainder.  Whenever
the input is `#/definitions/` followed by a remainder whose first character is
outside that set (for example an upper-case class name), this agrees with
stripping the literal prefix; in particular
`convertRefToClassName "#/definitions/Session" = "Session"`. -/
theorem c1_amended :
    (∀ (c : Char) (rest : List Char),
        "#/definitions/".toList.contains c = false →
        convertRefToClassName ("#/definitions/".toList ++ c :: rest)
          = goTitle (c :: rest))
    ∧ convertRefToClassNameS "#/definitions/Session" = "Session" := by
  constructor
  · intro c rest h
    unfold convertRefToClassName goTrimLeft
    rw [List.dropWhile_append]
    have h1 : List.dropWhile (fun c => "#/definitions/".toList.contains c)
        "#/definitions/".toList = [] := by decide
    rw [h1]
    simp only [List.isEmpty_nil, if_true]
    have h' : ¬ ("#/definitions/".toList.contains c = true) := by
      rw [h]
      simp
    rw [List.dropWhile_cons_of_neg h']
  · decide

/-- C1, witness for the amended statement at the reference
`#/definitions/Session`. -/
theorem c1_witness :
    convertRefToClassName ("#/definitions/".toList ++ 'S' :: "ession".toList)
      = goTitle ('S' :: "ession".toList) :=
  c1_amended.1 'S' "ession".toList (by decide)

/-- C2, counterexample: `snakeCaseToPascalCase` *can* emit literal
underscores.  The very input named by the claim, `"___a"`, maps to `"__a"`:
the first underscore is upper-cased verbatim by the `k == 0` branch (which
also does not set the capitalize-next flag), and in a later run of
underscores every second one is emitted by the flag branch.  Likewise
`"_a"` maps to `"_a"` — the leading underscore is kept and does not
capitalize the `a`. -/
theorem c2_counterexample :
    snakeCaseToPascalCaseS "___a" = "__a"
    ∧ '_' ∈ (snakeCaseToPascalCaseS "___a").toList
    ∧ snakeCaseToPascalCaseS "_a" = "_a" := by
  decide

/-- C2, amended: the output of `snakeCaseToPascalCase` contains no underscore
provided the input does not begin with an underscore and contains no two
adjacent underscores; under those conditions each single underscore is
consumed as a capitalize-next signal (and a trailing underscore contributes
nothing). -/
theorem c2_amended (s : List Char)
    (h0 : s.head? ≠ some '_')
    (h1 : s.Chain' fun a b => ¬(a = '_' ∧ b = '_')) :
    '_' ∉ snakeCaseToPascalCase s := by
  cases s with
  | nil => simp [snakeCaseToPascalCase]
  | cons c rest =>
    have hc : c ≠ '_' := by
      intro h
      exact h0 (by simp [h])
    rw [List.chain'_cons'] at h1
    simp only [snakeCaseToPascalCase]
    intro hmem
    rcases List.mem_cons.mp hmem with h | h
    · exact toUpper_ne_underscore hc h.symm
    · exact snakeAux_no_underscore rest h1.2 false (by simp) h

/-- C2, witness for the amended statement at the input `user_id`. -/
theorem c2_witness : '_' ∉ snakeCaseToPascalCase "user_id".toList :=
  c2_amended "user_id".toList (by decide)
    (by
      show List.Chain' _ ['u', 's', 'e', 'r', '_', 'i', 'd']
      simp only [List.chain'_cons, List.chain'_singleton, and_true]
      decide)

/-- C3: the rendered field declaration follows exactly the precedence the
specification describes — `integer`/`boolean`/`string` primitive fields, an
`array` field whose element type comes from `Items.Type` with the
object-reference fallback from `Items.Ref`, and otherwise a single
object-reference field from `Ref`.  The two schema examples of the
specification evaluate accordingly. -/
theorem c3_fieldDecl :
    (∀ p : Property, renderFieldType p = specFieldDecl p)
    ∧ renderFieldType { type := "array", items := { type := "string" } } = .listString
    ∧ renderFieldType { ref := "#/definitions/Wallet" } = .objRef "Wallet" := by
  refine ⟨fun p => ?_, by decide, by decide⟩
  unfold renderFieldType specFieldDecl
  split_ifs <;> simp_all

/-- C4: rendering the schema
`{"definitions":{"Account":{"properties":{"user_id":{"type":"string"},"wallet":{"type":"integer"}}}}}`
produces the interface `IAccount` with a string member `UserId` and an
integer member `Wallet`, and the class `Account` (implementing `IAccount`)
whose `UserId` member is annotated with the original key `user_id` (and
`Wallet` with `wallet`). -/
theorem c4_accountSchema :
    renderSchema
      { definitions := [("Account",
          { properties := [("user_id", { type := "string" }),
                           ("wallet", { type := "integer" })] })] } =
      [{ defKey := "Account", interfaceName := "IAccount", className := "Account",
         fields := [{ jsonKey := "user_id", name := "UserId", fieldType := .string },
                    { jsonKey := "wallet", name := "Wallet", fieldType := .int }] }] := by
  decide

/-- C9, counterexample: `stripNewlines` does not collapse multi-character
newline sequences and preserves length exactly — on `"a\r\nb"` (one CRLF
sequence) the output is `"a\r b"`, of the same length as the input, where the
claim's collapsing reading would require the two-character sequence to become
a single space. -/
theorem c9_counterexample :
    stripNewlinesS "a\r\nb" = "a\r b"
    ∧ (stripNewlinesS "a\r\nb").length = ("a\r\nb" : String).length
    ∧ ("a\r b" : String) ≠ "a b" := by
  decide

/-- C9, amended: `stripNewlines` replaces every `'\n'` character with a
single space, preserving all other characters — so
`strip_newlines("a\nb\nc") = "a b c"` — and it preserves length exactly:
each occurrence of `'\n'` becomes one space, and multi-character sequences
such as `"\r\n"` do not collapse (the `'\r'` is kept). -/
theorem c9_amended :
    (∀ s : List Char, stripNewlines s = s.map fun c => if c = '\n' then ' ' else c)
    ∧ (∀ s : List Char, (stripNewlines s).length = s.length)
    ∧ stripNewlinesS "a\nb\nc" = "a b c" := by
  refine ⟨fun s => goReplaceAll_single '\n' ' ' s, fun s => ?_, by decide⟩
  unfold stripNewlines
  rw [goReplaceAll_single '\n' ' ' s, List.length_map]

/-- C10: `snakeCaseToPascalCase` is total on every string; on the empty
string the loop body (and with it the read of `input[0]`) is never reached
and the zero-valued named return `""` is produced; moreover the output never
exceeds the input in length. -/
theorem c10_empty :
    snakeCaseToPascalCaseS "" = ""
    ∧ (∀ s : List Char, (snakeCaseToPascalCase s).length ≤ s.length) := by
  refine ⟨by decide, fun s => ?_⟩
  cases s with
  | nil => simp [snakeCaseToPascalCase]
  | cons c rest =>
    simpa [snakeCaseToPascalCase] using snakeAux_length_le rest false

/-- A decode oracle that always succeeds with the empty schema (the behaviour
of `json.Unmarshal` on `{}`). -/
def decodeEmptyOk : String → Except String Schema :=
  fun _ => .ok {}

/-- C5: the generator is deterministic — `mainRun` is a pure function of the
decode function (itself a fixed function of the file contents, as
`json.Unmarshal` is) and of the invocation environment (arguments, file
contents and filesystem outcomes), so two invocations with equal inputs
produce identical outcomes; no timestamp or other run-varying datum enters
the pipeline, and ranging over the decoded maps happens in sorted key order,
which does not vary between runs. -/
theorem c5_deterministic (decode : String → Except String Schema)
    (e₁ e₂ : MainEnv) (h : e₁ = e₂) :
    mainRun decode e₁ = mainRun decode e₂ := by
  rw [h]

/-- C5, witness: two identical successful invocations coincide. -/
theorem c5_witness :
    mainRun decodeEmptyOk
        { inputs := ["api.json"], outputFlag := "gen.cs", readResult := .ok "{}",
          templateParseError := none, createError := none, writeError := none }
      = mainRun decodeEmptyOk
        { inputs := ["api.json"], outputFlag := "gen.cs", readResult := .ok "{}",
          templateParseError := none, createError := none, writeError := none } :=
  c5_deterministic decodeEmptyOk _ _ rfl

/-- A document whose two definitions appear in non-alphabetical order. -/
def defsOutOfOrder : Schema :=
  { definitions := [("wallet", {}), ("account", {})] }

/-- C6, counterexample: the renderer does not iterate `Definitions` in
insertion order.  For a document listing `wallet` before `account`, the
rendered definitions come out as `account`, `wallet` — Go's `text/template`
ranges over a map in sorted key order, and `encoding/json` decodes an object
into a map that retains no insertion order at all. -/
theorem c6_counterexample :
    (renderSchema defsOutOfOrder).map RenderedDef.defKey = ["account", "wallet"]
    ∧ defsOutOfOrder.definitions.map Prod.fst = ["wallet", "account"]
    ∧ (["account", "wallet"] : List String) ≠ ["wallet", "account"] := by
  decide

/-- C6, amended: the template renderer visits the `Definitions` mapping, and
each `Definition`'s `Properties` mapping, exactly once per entry in
lexicographically sorted key order (the order `text/template` uses for maps),
not in document insertion order. -/
theorem c6_amended :
    (∀ s : Schema,
        List.Pairwise (fun a b : String => a.toList ≤ b.toList)
          ((renderSchema s).map RenderedDef.defKey)
        ∧ ((renderSchema s).map RenderedDef.defKey).Perm
            (s.definitions.map Prod.fst))
    ∧ (∀ (dn : String) (d : Definition),
        List.Pairwise (fun a b : String => a.toList ≤ b.toList)
          ((renderDef dn d).fields.map RenderedField.jsonKey)
        ∧ ((renderDef dn d).fields.map RenderedField.jsonKey).Perm
            (d.properties.map Prod.fst)) := by
  constructor
  · intro s
    rw [renderSchema_defKeys]
    constructor
    · exact (List.sorted_insertionSort keyLe s.definitions).map _ (fun _ _ h => h)
    · exact (List.perm_insertionSort keyLe s.definitions).map Prod.fst
  · intro dn d
    rw [renderDef_jsonKeys]
    constructor
    · exact (List.sorted_insertionSort keyLe d.properties).map _ (fun _ _ h => h)
    · exact (List.perm_insertionSort keyLe d.properties).map Prod.fst

/-- An invocation in which everything succeeds except the final write. -/
def envWriteFail : MainEnv :=
  { inputs := ["api.json"], outputFlag := "gen.cs", readResult := .ok "{}",
    templateParseError := none, createError := none,
    writeError := some "write gen.cs: no space left on device" }

/-- C7, counterexample: a write failure is *not* reported.  `main` discards
the return values of `tmpl.Execute(writer, schema)` and `writer.Flush()`, so
when the write fails no diagnostic at all reaches standard output (the exit
status is still zero), contradicting the claim that every listed fatal error,
write failure included, prints a one-line diagnostic with the error text. -/
theorem c7_counterexample :
    (mainRun decodeEmptyOk envWriteFail).stdout = ""
    ∧ (mainRun decodeEmptyOk envWriteFail).fileCreated = true
    ∧ (mainRun decodeEmptyOk envWriteFail).exitCode = 0 := by
  decide

/-- C7, amended: for the four error conditions `main` actually checks —
input-read failure, JSON-decode failure, template-construction failure and
output-file-creation failure — the program prints a one-line diagnostic
containing the underlying error text to standard output and returns without
producing any output, with exit status zero; errors raised by the final
template execution and buffered-writer flush are silently discarded. -/
theorem c7_amended (decode : String → Except String Schema) (env : MainEnv)
    (input : String) (rest : List String) (hin : env.inputs = input :: rest) :
    (∀ e, env.readResult = .error e →
        mainRun decode env = stoppedWith ("Unable to read file: " ++ e ++ "\n"))
    ∧ (∀ content e, env.readResult = .ok content → decode content = .error e →
        mainRun decode env
          = stoppedWith ("Unable to decode input " ++ input ++ " : " ++ e ++ "\n"))
    ∧ (∀ content schema e, env.readResult = .ok content →
        decode content = .ok schema → env.templateParseError = some e →
        mainRun decode env = stoppedWith ("Template parse error: " ++ e ++ "\n"))
    ∧ (∀ content schema e, env.readResult = .ok content →
        decode content = .ok schema → env.templateParseError = none →
        env.outputFlag ≠ "" → env.createError = some e →
        mainRun decode env = stoppedWith ("Unable to create file: " ++ e ++ "\n"))
    ∧ (∀ msg, (stoppedWith msg).stdout = msg ∧ (stoppedWith msg).exitCode = 0
        ∧ (stoppedWith msg).fileCreated = false
        ∧ (stoppedWith msg).fileRender = none
        ∧ (stoppedWith msg).stdoutRender = none) := by
  refine ⟨?_, ?_, ?_, ?_, fun msg => ⟨rfl, rfl, rfl, rfl, rfl⟩⟩
  · intro e he
    simp [mainRun, hin, he]
  · intro content e hr hd
    simp [mainRun, hin, hr, hd]
  · intro content schema e hr hd ht
    simp [mainRun, hin, hr, hd, ht]
  · intro content schema e hr hd ht hflag hc
    simp [mainRun, hin, hr, hd, ht, hflag, hc]

/-- An invocation whose input file cannot be read. -/
def envReadFail : MainEnv :=
  { inputs := ["missing.json"], outputFlag := "",
    readResult := .error "open missing.json: no such file or directory",
    templateParseError := none, createError := none, writeError := none }

/-- C7, witness for the amended statement on a failing read. -/
theorem c7_witness :
    mainRun decodeEmptyOk envReadFail
      = stoppedWith ("Unable to read file: "
          ++ "open missing.json: no such file or directory" ++ "\n") :=
  (c7_amended decodeEmptyOk envReadFail "missing.json" [] rfl).1 _ rfl

/-- C8: when the input contents do not decode, the program creates no output
file (the `--output` destination is neither created nor truncated, since
`os.Create` is never reached), renders nothing anywhere, and prints a
non-empty diagnostic; nothing of a partially decoded value is used. -/
theorem c8_decodeError (decode : String → Except String Schema) (env : MainEnv)
    (input : String) (rest : List String) (content e : String)
    (hin : env.inputs = input :: rest)
    (hread : env.readResult = .ok content)
    (hdec : decode content = .error e) :
    (mainRun decode env).fileCreated = false
    ∧ (mainRun decode env).fileRender = none
    ∧ (mainRun decode env).stdoutRender = none
    ∧ (mainRun decode env).stdout ≠ "" := by
  simp only [mainRun, hin, hread, hdec, stoppedWith]
  refine ⟨trivial, trivial, trivial, ?_⟩
  intro hcontra
  have h2 := congrArg String.length hcontra
  simp only [String.length_append] at h2
  have h3 : ("\n" : String).length = 1 := by decide
  have h4 : ("" : String).length = 0 := by decide
  omega

/-- A decode oracle that always fails, as `json.Unmarshal` does on malformed
input. -/
def decodeFail : String → Except String Schema :=
  fun _ => .error "invalid character 'h' looking for beginning of value"

/-- An invocation handing malformed JSON to the decoder. -/
def envDecodeFail : MainEnv :=
  { inputs := ["api.json"], outputFlag := "gen.cs", readResult := .ok "this is not json",
    templateParseError := none, createError := none, writeError := none }

/-- C8, witness on a concrete malformed-input invocation. -/
theorem c8_witness :
    (mainRun decodeFail envDecodeFail).fileCreated = false
    ∧ (mainRun decodeFail envDecodeFail).fileRender = none
    ∧ (mainRun decodeFail envDecodeFail).stdoutRender = none
    ∧ (mainRun decodeFail envDecodeFail).stdout ≠ "" :=
  c8_decodeError decodeFail envDecodeFail "api.json" [] "this is not json" _ rfl rfl rfl

end OpenapiGen
